import Mathlib

/-!
Shallow embedding of `src/app/orchestrator.py` (Arkab cybersecurity orchestrator).

Python floats are modelled as rationals, `datetime` values as integer epoch
seconds, and the metrics source consumed by the healing system as an
`Except String` value (the `try`/`except` outcome of the `psutil` calls).
-/

namespace Arkab

/-- The `ThreatLevel` enum from `orchestrator.py` lines 14-17. -/
inductive ThreatLevel
  | benign
  | suspicious
  | critical
deriving DecidableEq

/-- The `ActionType` enum from `orchestrator.py` lines 20-24: the closed set is
exactly MONITOR, BLOCK, ALERT (there is no ISOLATE constructor). -/
inductive ActionType
  | monitor
  | block
  | alert
deriving DecidableEq

/-- The `Evidence` model (lines 27-33); `metrics` is an opaque string map passed
through untouched. -/
structure Evidence where
  source : String
  timestamp : Int
  entity_id : String
  threat_level : ThreatLevel
  confidence : ℚ
  metrics : List (String × String)
deriving DecidableEq

/-- The `Decision` model (lines 46-53). -/
structure Decision where
  decision_id : String
  timestamp : Int
  entity_id : String
  action : ActionType
  confidence : ℚ
  reasoning : String
  evidence_count : Nat
deriving DecidableEq

/-- One entry of the memory list built in `Memory.remember` (lines 75-80):
the evidence/decision snapshots, the insertion time, and the weight. -/
structure MemoryEntry where
  evidence : Evidence
  decision : Decision
  timestamp : Int
  weight : ℚ
deriving DecidableEq

/-- The `Memory` state (lines 68-71): a list of entries plus the `max_size` bound. -/
structure Memory where
  memories : List MemoryEntry
  max_size : Nat
deriving DecidableEq

/-- Method `Memory.remember` (lines 73-85): append the new entry with weight 1.0,
then `pop(0)` when the length exceeds `max_size`. -/
def Memory.remember (m : Memory) (ev : Evidence) (d : Decision) (now : Int) : Memory :=
  let entry : MemoryEntry := ⟨ev, d, now, 1⟩
  let ms := m.memories ++ [entry]
  if ms.length > m.max_size then ⟨ms.drop 1, m.max_size⟩ else ⟨ms, m.max_size⟩

/-- Method `Memory.decay_memories` (lines 87-90): every weight is multiplied by 0.99,
with no dependence on elapsed time and no lower floor. -/
def Memory.decay_memories (m : Memory) : Memory :=
  ⟨m.memories.map (fun e => { e with weight := e.weight * (99/100) }), m.max_size⟩

/-- Iterated `decay_memories`. -/
def decayN (m : Memory) : Nat → Memory
  | 0 => m
  | n + 1 => decayN m.decay_memories n

/-- The entry that `remember` would build from one (evidence, decision, time)
triple. -/
def entryOf (t : Evidence × Decision × Int) : MemoryEntry :=
  ⟨t.1, t.2.1, t.2.2, 1⟩

/-- A sequence of `remember` calls, oldest first. -/
def rememberAll (m : Memory) (xs : List (Evidence × Decision × Int)) : Memory :=
  xs.foldl (fun acc t => acc.remember t.1 t.2.1 t.2.2) m

/-- Python's two-argument `min` on rationals. -/
def pymin (a b : ℚ) : ℚ := if a ≤ b then a else b

/-- Python's two-argument `max` on rationals. -/
def pymax (a b : ℚ) : ℚ := if b ≤ a then a else b

/-- The decision id string built at line 172:
`f"dec_{evidence.entity_id}_{int(datetime.now().timestamp())}"`. -/
def decisionIdOf (entityId : String) (now : Int) : String :=
  "dec_" ++ entityId ++ "_" ++ toString now

/-- Method `LivingCyberSecuritySystem.process_evidence` (lines 155-184): classify by
threat level, build the decision, and remember the pair. `now` stands for the
wall-clock reads inside the method. Returns the decision together with the
updated memory. -/
def process_evidence (m : Memory) (ev : Evidence) (now : Int) : Decision × Memory :=
  let acr : ActionType × ℚ × String :=
    if ev.threat_level = ThreatLevel.critical then
      (ActionType.block, pymin (9/10 : ℚ) (ev.confidence + 1/10),
        "Critical threat detected - immediate action required")
    else if ev.threat_level = ThreatLevel.suspicious then
      (ActionType.alert, ev.confidence, "Suspicious activity requires monitoring")
    else
      (ActionType.monitor, pymax (3/10 : ℚ) (ev.confidence - 1/10),
        "Benign activity - continue monitoring")
  let d : Decision :=
    ⟨decisionIdOf ev.entity_id now, now, ev.entity_id, acr.1, acr.2.1, acr.2.2, 1⟩
  (d, m.remember ev d now)

/-- The loop body of `process_evidence_batch` (lines 229-242) applied to
already-parsed evidences: each is classified in order and the decisions are
collected. -/
def process_evidence_batch (m : Memory) (evs : List Evidence) (now : Int) :
    List Decision × Memory :=
  evs.foldl (fun acc ev =>
    let r := process_evidence acc.2 ev now
    (acc.1 ++ [r.1], r.2)) ([], m)

/-- The health snapshot dict returned by `monitor_health` (lines 95-115). -/
structure Health where
  cpu_usage : ℚ
  memory_usage : ℚ
  disk_usage : ℚ
  status : String
  error : Option String
deriving DecidableEq

/-- Method `HealingSystem.monitor_health` (lines 95-115): on a successful sample the
three utilisation figures with status "healthy"; on any sampling exception a
zeroed snapshot with status "error" and the error message. -/
def monitor_health (sample : Except String (ℚ × ℚ × ℚ)) : Health :=
  match sample with
  | Except.ok (c, mu, du) => ⟨c, mu, du, "healthy", none⟩
  | Except.error e => ⟨0, 0, 0, "error", some e⟩

/-- Method `HealingSystem.diagnose_problems` (lines 117-129): thresholds are
cpu > 80, memory > 90, disk > 85, and the tags are full sentences. -/
def diagnose_problems (sample : Except String (ℚ × ℚ × ℚ)) : List String :=
  let health := monitor_health sample
  ((if health.cpu_usage > 80 then ["High CPU usage"] else []) ++
    (if health.memory_usage > 90 then ["High memory usage"] else []) ++
      (if health.disk_usage > 85 then ["High disk usage"] else []))

/-- Equality test on characters extended to a prefix test on character lists. -/
def isPrefixChars : List Char → List Char → Bool
  | [], _ => true
  | _ :: _, [] => false
  | a :: as, b :: bs => a == b && isPrefixChars as bs

/-- Substring test on character lists: the needle occurs somewhere in the
haystack. -/
def containsSub (needle : List Char) : List Char → Bool
  | [] => needle.isEmpty
  | b :: bs => isPrefixChars needle (b :: bs) || containsSub needle bs

/-- Python's `needle in haystack` on strings. -/
def strContains (haystack needle : String) : Bool :=
  containsSub needle.toList haystack.toList

/-- One iteration of the loop in `self_heal` (lines 135-141). -/
def heal_action (problem : String) : List String :=
  if strContains problem "CPU" then ["Reduced process priority"]
  else if strContains problem "memory" then ["Cleared memory cache"]
  else if strContains problem "disk" then ["Cleaned temporary files"]
  else []

/-- Method `HealingSystem.self_heal` (lines 131-143). -/
def self_heal (problems : List String) : List String :=
  problems.foldl (fun acc p => acc ++ heal_action p) []

/-- Concrete evidences and memories used in the concrete evaluations below. -/
def evCrit : Evidence := ⟨"s", 0, "host", ThreatLevel.critical, 19/20, []⟩

def evBenign : Evidence := ⟨"s", 0, "host", ThreatLevel.benign, 1, []⟩

def evSusp : Evidence := ⟨"s", 0, "host", ThreatLevel.suspicious, 1/2, []⟩

def evA : Evidence := ⟨"sensorA", 0, "host-1", ThreatLevel.benign, 1/2, []⟩

def evA2 : Evidence := ⟨"sensorB", 0, "host-1", ThreatLevel.suspicious, 3/4, []⟩

def decB : Decision := ⟨"d1", 0, "e1", ActionType.monitor, 2/5, "r", 1⟩

def mem1 : Memory := Memory.remember ⟨[], 10⟩ evA decB 0

/-- Claim C1 counterexample: for evidence with `threat_level = CRITICAL` and
`confidence = 0.95 ≥ 0.8`, the produced decision's confidence is
`min(0.9, 0.95 + 0.1) = 0.9`, not `min(0.95 + 0.1, 1.0) = 1.0` as claimed
(and the action is BLOCK; the `ActionType` enum has no ISOLATE member). -/
theorem C1_counterexample :
    evCrit.threat_level = ThreatLevel.critical ∧ (8/10 : ℚ) ≤ evCrit.confidence ∧
      ((process_evidence ⟨[], 10⟩ evCrit 0).1).confidence ≠
        pymin (evCrit.confidence + 1/10) 1 := by
  refine ⟨rfl, by norm_num [evCrit], ?_⟩
  norm_num [process_evidence, evCrit, pymin]

/-- Claim C1 (amended): for every Evidence with `threat_level = CRITICAL` and
`confidence ≥ 0.8`, `process_evidence` returns a Decision with
`action = BLOCK` and `confidence = min(0.9, confidence + 0.1)`, which is
at most 1.0. -/
theorem C1_critical_block (m : Memory) (ev : Evidence) (now : Int)
    (hl : ev.threat_level = ThreatLevel.critical) (hc : (8/10 : ℚ) ≤ ev.confidence) :
    ((process_evidence m ev now).1).action = ActionType.block ∧
      ((process_evidence m ev now).1).confidence = pymin (9/10 : ℚ) (ev.confidence + 1/10) ∧
        ((process_evidence m ev now).1).confidence ≤ 1 := by
  refine ⟨by simp [process_evidence, hl], by simp [process_evidence, hl], ?_⟩
  have h1 : ((process_evidence m ev now).1).confidence
      = pymin (9/10 : ℚ) (ev.confidence + 1/10) := by
    simp [process_evidence, hl]
  rw [h1, pymin]
  split_ifs with h
  · norm_num
  · push_neg at h
    linarith

/-- Concrete instance of the amended claim C1 at confidence 0.95. -/
theorem C1_witness :
    ((process_evidence ⟨[], 10⟩ evCrit 0).1).action = ActionType.block ∧
      ((process_evidence ⟨[], 10⟩ evCrit 0).1).confidence
          = pymin (9/10 : ℚ) (evCrit.confidence + 1/10) ∧
        ((process_evidence ⟨[], 10⟩ evCrit 0).1).confidence ≤ 1 :=
  C1_critical_block ⟨[], 10⟩ evCrit 0 rfl (by norm_num [evCrit])

/-- Claim C4 counterexample: two distinct decisions — same entity, same
wall-clock second, different evidence — receive the same `decision_id`. -/
theorem C4_counterexample :
    ((process_evidence ⟨[], 10⟩ evA 7).1) ≠ ((process_evidence ⟨[], 10⟩ evA2 7).1) ∧
      ((process_evidence ⟨[], 10⟩ evA 7).1).decision_id
        = ((process_evidence ⟨[], 10⟩ evA2 7).1).decision_id := by
  decide

/-- Claim C4 (amended): `decision_id` is the wall-clock-derived string
`"dec_" + entity_id + "_" + ⌊now⌋`; it is not random, and decisions for the
same entity within the same second share the same id. -/
theorem C4_decision_id_formula (m : Memory) (ev : Evidence) (now : Int) :
    ((process_evidence m ev now).1).decision_id
      = "dec_" ++ ev.entity_id ++ "_" ++ toString now := rfl

/-- Claim C5 counterexample: for BENIGN evidence with confidence 1.0 the
produced confidence is `max(0.3, 1.0 - 0.1) = 0.9`, not `1.0 × 0.8 = 0.8`. -/
theorem C5_counterexample :
    evBenign.threat_level = ThreatLevel.benign ∧
      ((process_evidence ⟨[], 10⟩ evBenign 0).1).confidence
        ≠ evBenign.confidence * (8/10) := by
  refine ⟨rfl, ?_⟩
  simp [process_evidence, evBenign]
  norm_num [pymax]

/-- Claim C5 (amended): for every Evidence with `threat_level = BENIGN`,
`process_evidence` returns `action = MONITOR` and
`confidence = max(0.3, confidence - 0.1)`. -/
theorem C5_benign_monitor (m : Memory) (ev : Evidence) (now : Int)
    (hl : ev.threat_level = ThreatLevel.benign) :
    ((process_evidence m ev now).1).action = ActionType.monitor ∧
      ((process_evidence m ev now).1).confidence
        = pymax (3/10 : ℚ) (ev.confidence - 1/10) := by
  constructor <;> simp [process_evidence, hl]

/-- Concrete instance of the amended claim C5 at confidence 1.0. -/
theorem C5_witness :
    ((process_evidence ⟨[], 10⟩ evBenign 0).1).action = ActionType.monitor ∧
      ((process_evidence ⟨[], 10⟩ evBenign 0).1).confidence
        = pymax (3/10 : ℚ) (evBenign.confidence - 1/10) :=
  C5_benign_monitor ⟨[], 10⟩ evBenign 0 rfl

/-- Claim C6 counterexample: for SUSPICIOUS evidence with confidence
0.5 < 0.6 the produced action is ALERT with confidence 0.5, not MONITOR
with confidence 0.4 as claimed. -/
theorem C6_counterexample :
    evSusp.threat_level = ThreatLevel.suspicious ∧ evSusp.confidence < 6/10 ∧
      ((process_evidence ⟨[], 10⟩ evSusp 0).1).action ≠ ActionType.monitor := by
  refine ⟨rfl, by norm_num [evSusp], ?_⟩
  simp [process_evidence, evSusp]

/-- Claim C6 (amended): for every Evidence with `threat_level = SUSPICIOUS`,
regardless of confidence, `process_evidence` returns `action = ALERT` with
the confidence unchanged; there is no low-confidence MONITOR branch. -/
theorem C6_suspicious_alert (m : Memory) (ev : Evidence) (now : Int)
    (hl : ev.threat_level = ThreatLevel.suspicious) :
    ((process_evidence m ev now).1).action = ActionType.alert ∧
      ((process_evidence m ev now).1).confidence = ev.confidence := by
  constructor <;> simp [process_evidence, hl]

/-- Concrete instance of the amended claim C6 at confidence 0.5. -/
theorem C6_witness :
    ((process_evidence ⟨[], 10⟩ evSusp 0).1).action = ActionType.alert ∧
      ((process_evidence ⟨[], 10⟩ evSusp 0).1).confidence = evSusp.confidence :=
  C6_suspicious_alert ⟨[], 10⟩ evSusp 0 rfl

/-- Unfolding of `remember` on an explicit state: append the new entry, then drop the
oldest when the bound is exceeded. -/
theorem remember_eq (L : List MemoryEntry) (K : Nat) (ev : Evidence) (d : Decision) (now : Int) :
    Memory.remember ⟨L, K⟩ ev d now =
      if K < L.length + 1 then ⟨(L ++ [(⟨ev, d, now, 1⟩ : MemoryEntry)]).drop 1, K⟩
      else ⟨L ++ [(⟨ev, d, now, 1⟩ : MemoryEntry)], K⟩ := by
  simp [Memory.remember]

/-- Closed form of a `remember` sequence: starting below capacity, the final
list is the concatenation with the oldest overflow dropped from the front. -/
theorem rememberAll_spec (xs : List (Evidence × Decision × Int)) (L : List MemoryEntry)
    (K : Nat) (h : L.length ≤ K) :
    rememberAll ⟨L, K⟩ xs = ⟨(L ++ xs.map entryOf).drop (L.length + xs.length - K), K⟩ := by
  induction xs generalizing L with
  | nil =>
    simp [rememberAll, Nat.sub_eq_zero_of_le h]
  | cons x rest ih =>
    have hstep : rememberAll ⟨L, K⟩ (x :: rest)
        = rememberAll (Memory.remember ⟨L, K⟩ x.1 x.2.1 x.2.2) rest := rfl
    rw [hstep, remember_eq]
    by_cases hK : K < L.length + 1
    · have hL : L.length = K := by omega
      rw [if_pos hK]
      have hlen : ((L ++ [(⟨x.1, x.2.1, x.2.2, 1⟩ : MemoryEntry)]).drop 1).length ≤ K := by
        simp only [List.length_drop, List.length_append, List.length_cons, List.length_nil]
        omega
      rw [ih _ hlen]
      have hidx : ((L ++ [(⟨x.1, x.2.1, x.2.2, 1⟩ : MemoryEntry)]).drop 1).length
          + rest.length - K = rest.length := by
        simp only [List.length_drop, List.length_append, List.length_cons, List.length_nil]
        omega
      have hfront : ((L ++ [(⟨x.1, x.2.1, x.2.2, 1⟩ : MemoryEntry)]) ++ rest.map entryOf).drop 1
          = (L ++ [(⟨x.1, x.2.1, x.2.2, 1⟩ : MemoryEntry)]).drop 1 ++ rest.map entryOf :=
        List.drop_append_of_le_length (by simp)
      have hidx2 : L.length + (x :: rest).length - K = 1 + rest.length := by
        simp only [List.length_cons]
        omega
      rw [hidx, ← hfront, List.drop_drop, hidx2, List.append_assoc]
      rfl
    · rw [if_neg hK]
      have hlen : (L ++ [(⟨x.1, x.2.1, x.2.2, 1⟩ : MemoryEntry)]).length ≤ K := by
        simp only [List.length_append, List.length_cons, List.length_nil]
        omega
      rw [ih _ hlen]
      have hidx : (L ++ [(⟨x.1, x.2.1, x.2.2, 1⟩ : MemoryEntry)]).length + rest.length - K
          = L.length + (x :: rest).length - K := by
        simp only [List.length_append, List.length_cons, List.length_nil]
        omega
      rw [hidx, List.append_assoc]
      rfl

/-- Claim C2: starting from an empty store, after N > max_size `remember`
calls the store holds exactly max_size entries, namely the insertion sequence
with its N − max_size oldest entries evicted from the front (FIFO, insertion
order preserved), and after every individual call the store holds at most
max_size entries. -/
theorem C2_fifo_eviction (K : Nat) (xs : List (Evidence × Decision × Int))
    (hN : xs.length > K) :
    ((rememberAll ⟨[], K⟩ xs).memories.length = K) ∧
      ((rememberAll ⟨[], K⟩ xs).memories = (xs.map entryOf).drop (xs.length - K)) ∧
        (∀ i, ((rememberAll ⟨[], K⟩ (xs.take i)).memories.length ≤ K)) := by
  have hbase : ∀ ys : List (Evidence × Decision × Int),
      (rememberAll ⟨[], K⟩ ys).memories = (ys.map entryOf).drop (ys.length - K) := by
    intro ys
    rw [rememberAll_spec ys [] K (by simp)]
    simp
  refine ⟨?_, hbase xs, ?_⟩
  · rw [hbase xs]
    simp
    omega
  · intro i
    rw [hbase (xs.take i)]
    simp
    omega

/-- Concrete instance of claim C2: three insertions into a store of capacity
two keep exactly the two most recent entries, each step staying within the
bound. -/
theorem C2_witness :
    ((rememberAll ⟨[], 2⟩ [(evA, decB, 0), (evA2, decB, 1), (evCrit, decB, 2)]).memories.length
        = 2) ∧
      ((rememberAll ⟨[], 2⟩ [(evA, decB, 0), (evA2, decB, 1), (evCrit, decB, 2)]).memories
          = ([(evA, decB, 0), (evA2, decB, 1), (evCrit, decB, 2)].map entryOf).drop
              ([(evA, decB, 0), (evA2, decB, 1), (evCrit, decB, 2)].length - 2)) ∧
        ((rememberAll ⟨[], 2⟩
              ([(evA, decB, 0), (evA2, decB, 1), (evCrit, decB, 2)].take 2)).memories.length
            ≤ 2) :=
  ⟨(C2_fifo_eviction 2 _ (by simp)).1, (C2_fifo_eviction 2 _ (by simp)).2.1,
    (C2_fifo_eviction 2 _ (by simp)).2.2 2⟩

/-- Claim C3 counterexample: on a store holding one entry of weight 1.0,
calling `decay_memories` twice (no time passes in the model at all, since the
operation never reads a clock) leaves weight 0.9801, while calling it once
leaves 0.99: the weights differ, so decay is not idempotent at an instant. -/
theorem C3_counterexample :
    mem1.decay_memories.decay_memories.memories.map MemoryEntry.weight
      ≠ mem1.decay_memories.memories.map MemoryEntry.weight := by
  simp [mem1, Memory.remember, Memory.decay_memories, evA, decB]
  norm_num

/-- Claim C3 (amended): `decay_memories` multiplies every weight by the fixed
per-call constant 0.99, independent of elapsed time, so two calls at the same
instant multiply each weight by 0.9801 — one call is not equivalent to two. -/
theorem C3_decay_twice (m : Memory) :
    m.decay_memories.decay_memories
      = ⟨m.memories.map (fun e => { e with weight := e.weight * (9801/10000) }), m.max_size⟩ := by
  simp only [Memory.decay_memories, List.map_map, Memory.mk.injEq, and_true]
  apply List.map_congr_left
  intro e _
  simp only [Function.comp_apply, MemoryEntry.mk.injEq, true_and]
  ring

/-- Pointwise closed form of iterated decay: after n calls each weight is the
original weight times 0.99 ^ n. -/
theorem decayN_weights (m : Memory) (n : Nat) :
    (decayN m n).memories
      = m.memories.map (fun e => { e with weight := e.weight * (99/100)^n }) := by
  induction n generalizing m with
  | zero =>
    simp only [decayN, pow_zero, mul_one]
    exact (List.map_id m.memories).symm
  | succ n ih =>
    rw [show decayN m (n+1) = decayN m.decay_memories n from rfl, ih]
    simp only [Memory.decay_memories, List.map_map]
    apply List.map_congr_left
    intro e _
    simp only [Function.comp_apply, MemoryEntry.mk.injEq, true_and]
    ring

/-- Claim C7 counterexample: a freshly remembered entry (weight 1.0) falls
below the claimed floor 0.1 after 230 decay calls — there is no weight_floor
in the code. -/
theorem C7_counterexample :
    ((decayN mem1 230).memories.map MemoryEntry.weight).headI < 1/10 := by
  rw [decayN_weights]
  simp [mem1, Memory.remember, evA, decB]
  norm_num

/-- Claim C7 (amended): on any store whose weights lie in (0, 1], one decay
call multiplies each weight by exactly 0.99, keeping every weight in (0, 1]
and never above its previous value; `remember` only adds entries of weight
1.0. There is no lower floor: weights only stay strictly positive. -/
theorem C7_weight_monotone (m : Memory) (ev : Evidence) (d : Decision) (now : Int)
    (h : ∀ e ∈ m.memories, 0 < e.weight ∧ e.weight ≤ 1) :
    (m.decay_memories.memories.map MemoryEntry.weight
        = m.memories.map (fun e => e.weight * (99/100))) ∧
      (∀ e ∈ m.decay_memories.memories, 0 < e.weight ∧ e.weight ≤ 1) ∧
        (∀ e ∈ m.memories, e.weight * (99/100) ≤ e.weight) ∧
          (∀ e ∈ (m.remember ev d now).memories, e ∈ m.memories ∨ e.weight = 1) := by
  refine ⟨?_, ?_, ?_, ?_⟩
  · simp [Memory.decay_memories, List.map_map]
  · intro e he
    simp only [Memory.decay_memories, List.mem_map] at he
    obtain ⟨a, ha, rfl⟩ := he
    obtain ⟨h1, h2⟩ := h a ha
    constructor
    · simp only
      nlinarith
    · simp only
      nlinarith
  · intro e he
    obtain ⟨h1, h2⟩ := h e he
    nlinarith
  · intro e he
    simp only [Memory.remember] at he
    split at he
    · have hmem : e ∈ m.memories ++ [(⟨ev, d, now, 1⟩ : MemoryEntry)] :=
        List.mem_of_mem_drop he
      rcases List.mem_append.mp hmem with hL | hR
      · exact Or.inl hL
      · right
        rw [List.mem_singleton.mp hR]
    · rcases List.mem_append.mp he with hL | hR
      · exact Or.inl hL
      · right
        rw [List.mem_singleton.mp hR]

/-- Concrete instance of the amended claim C7: the single weight-1.0 entry of
`mem1` has weight exactly 0.99 after one decay call. -/
theorem C7_witness :
    mem1.decay_memories.memories.map MemoryEntry.weight = [99/100] := by
  rw [(C7_weight_monotone mem1 evA decB 0 ?_).1]
  · simp [mem1, Memory.remember, evA, decB]
  · intro e he
    simp [mem1, Memory.remember, evA, decB] at he
    rw [he]
    norm_num

/-- Claim C8 counterexample: for a sample with cpu_usage = 95 the diagnosis
is the tag ["High CPU usage"], not ["cpu"], and healing the claimed tag "cpu"
returns no action at all rather than ["throttle processing"]. -/
theorem C8_counterexample :
    diagnose_problems (Except.ok (95, 10, 10)) ≠ ["cpu"] ∧
      self_heal ["cpu"] ≠ ["throttle processing"] := by
  constructor
  · have h1 : diagnose_problems (Except.ok (95, 10, 10)) = ["High CPU usage"] := by
      norm_num [diagnose_problems, monitor_health]
    rw [h1]
    decide
  · decide

/-- Claim C8 (amended): a sample with cpu_usage above the code's CPU
threshold 80 and the other resources at or below their thresholds (memory 90,
disk 85) diagnoses exactly ["High CPU usage"], whose healing action is
["Reduced process priority"] (memory maps to "Cleared memory cache", disk to
"Cleaned temporary files"); a sample with all three values at or below the
thresholds diagnoses no problems. -/
theorem C8_diagnose_heal (c mu du : ℚ) (hc : 80 < c) (hm : mu ≤ 90) (hd : du ≤ 85) :
    diagnose_problems (Except.ok (c, mu, du)) = ["High CPU usage"] ∧
      (self_heal ["High CPU usage"] = ["Reduced process priority"] ∧
        self_heal ["High memory usage"] = ["Cleared memory cache"] ∧
          self_heal ["High disk usage"] = ["Cleaned temporary files"]) ∧
        (∀ c2 m2 d2 : ℚ, c2 ≤ 80 → m2 ≤ 90 → d2 ≤ 85 →
          diagnose_problems (Except.ok (c2, m2, d2)) = []) := by
  refine ⟨?_, ⟨by decide, by decide, by decide⟩, ?_⟩
  · simp [diagnose_problems, monitor_health, hc, not_lt.mpr hm, not_lt.mpr hd]
  · intro c2 m2 d2 h1 h2 h3
    simp [diagnose_problems, monitor_health, not_lt.mpr h1, not_lt.mpr h2, not_lt.mpr h3]

/-- Concrete instance of the amended claim C8 at the sample (95, 10, 10). -/
theorem C8_witness :
    diagnose_problems (Except.ok (95, 10, 10)) = ["High CPU usage"] ∧
      self_heal ["High CPU usage"] = ["Reduced process priority"] :=
  ⟨(C8_diagnose_heal 95 10 10 (by norm_num) (by norm_num) (by norm_num)).1,
    (C8_diagnose_heal 95 10 10 (by norm_num) (by norm_num) (by norm_num)).2.1.1⟩

/-- Claim C9: `monitor_health` is a total function of the sampling outcome;
a failed sample yields the zeroed snapshot tagged with status "error" (and
the error message), every snapshot's status is either "healthy" or "error",
and the two tags are distinguishable. -/
theorem C9_monitor_health_total (e : String) (sample : Except String (ℚ × ℚ × ℚ)) :
    monitor_health (Except.error e) = ⟨0, 0, 0, "error", some e⟩ ∧
      ((monitor_health sample).status = "healthy" ∨ (monitor_health sample).status = "error") ∧
        (monitor_health (Except.error e)).status ≠ "healthy" := by
  refine ⟨rfl, ?_, (by decide : ("error" : String) ≠ "healthy")⟩
  cases sample with
  | ok v =>
    obtain ⟨c, mu, du⟩ := v
    exact Or.inl rfl
  | error err => exact Or.inr rfl

/-- Claim C10: `process_evidence` and the batch loop are total for every
evidence whose threat level is one of the three enum values, with no
constraint at all on confidence (out-of-range values included): the batch
returns one decision per evidence, and each decision carries the evidence's
entity id and an evidence_count of 1. -/
theorem C10_process_total (m : Memory) (evs : List Evidence) (now : Int) (ev : Evidence) :
    ((process_evidence_batch m evs now).1).length = evs.length ∧
      ((process_evidence m ev now).1).entity_id = ev.entity_id ∧
        ((process_evidence m ev now).1).evidence_count = 1 := by
  refine ⟨?_, rfl, rfl⟩
  have haux : ∀ (xs : List Evidence) (acc : List Decision) (mm : Memory),
      (xs.foldl (fun acc2 ev2 =>
        let r := process_evidence acc2.2 ev2 now
        (acc2.1 ++ [r.1], r.2)) (acc, mm)).1.length = acc.length + xs.length := by
    intro xs
    induction xs with
    | nil =>
      intro acc mm
      simp
    | cons y ys ih =>
      intro acc mm
      simp only [List.foldl_cons]
      calc (ys.foldl (fun acc2 ev2 =>
              let r := process_evidence acc2.2 ev2 now
              (acc2.1 ++ [r.1], r.2))
            (acc ++ [(process_evidence mm y now).1], (process_evidence mm y now).2)).1.length
          = (acc ++ [(process_evidence mm y now).1]).length + ys.length := ih _ _
        _ = acc.length + (y :: ys).length := by
            simp only [List.length_append, List.length_cons, List.length_nil]
            omega
  simpa using haux evs [] m

end Arkab
